import Mathlib

/-!
Verification of the FTP email-append batch processor
(`attachments/ftp_email_processor.py`).

This file gives a shallow embedding of the parts of the program that the
checked claims are about:

* the string / filename manipulation used by the upload-name construction
  and the completion poller (`Path(filename).stem`, `str.replace`,
  substring tests);
* the completion poller `wait_for_processing_sftp`: the attempt loop, the
  per-entry qualification test, and the timeout budget
  `(max_wait_minutes * 60) // check_interval`;
* the diff analysis `analyze_email_changes` over parsed tabular files,
  including the mutable `self.new_emails` / `self.duplicate_emails`
  instance state that the no-email-column branch leaves untouched;
* the batch orchestrator `process_workflow` / `process_single_file`:
  per-file step sequencing with first-failure capture, the
  successful/failed counters, and the threading of the source-endpoint
  connection handle through the batch (the mid-file reconnect rebinding a
  local variable only).

Machine integers do not occur on the modelled paths; Python ints map to
`Nat` / `Int`.  Filesystem and network effects are modelled by explicit
oracles (per-attempt directory listings, per-step outcomes, per-file probe
results) passed as arguments.
-/

/-! ## String primitives

Python string operations are modelled over `List Char`.  Characters are
compared by code point, as Python does. -/

/-- Lexicographic comparison of character lists by code point; this is
Python's `<=` on strings. -/
def leChars : List Char → List Char → Bool
  | [], _ => true
  | _ :: _, [] => false
  | a :: as, b :: bs =>
    if a.toNat < b.toNat then true
    else if b.toNat < a.toNat then false
    else leChars as bs

/-- Python's `<=` on strings. -/
def strLe (a b : String) : Bool := leChars a.data b.data

/-- Propositional form of `strLe`, used as the sort order. -/
def strLeP (a b : String) : Prop := strLe a b = true

instance : DecidableRel strLeP := fun a b => instDecidableEqBool (strLe a b) true

/-- Python's substring containment `pat in s`, over character lists. -/
def containsL (pat : List Char) : List Char → Bool
  | [] => pat.isPrefixOf []
  | c :: cs => pat.isPrefixOf (c :: cs) || containsL pat cs

/-- Python's `pat in s` on strings. -/
def containsStr (s pat : String) : Bool := containsL pat.data s.data

/-- Python's `s.lower()` (ASCII-relevant part; all headers and filenames in
the program are ASCII). -/
def lowerStr (s : String) : String := ⟨s.data.map Char.toLower⟩

/-- Python's `s.endswith(pat)`. -/
def endsWithStr (s pat : String) : Bool := pat.data.isSuffixOf s.data

/-- Fuel-driven core of Python's `s.replace(pat, repl)`: scan left to
right, replace each non-overlapping occurrence of `pat`, continue after
the replaced text.  The fuel is the length of the scanned list, enough
because every step consumes at least one character (the program only calls
this with the non-empty patterns `".csv"` and `"."`). -/
def replaceAllAux (pat repl : List Char) : Nat → List Char → List Char
  | _, [] => []
  | 0, s => s
  | fuel + 1, c :: cs =>
    if pat.isPrefixOf (c :: cs) then
      repl ++ replaceAllAux pat repl fuel ((c :: cs).drop pat.length)
    else
      c :: replaceAllAux pat repl fuel cs

/-- Python's `s.replace(pat, repl)` for non-empty `pat`. -/
def strReplace (s pat repl : String) : String :=
  ⟨replaceAllAux pat.data repl.data s.data.length s.data⟩

/-- Index of the last `'.'` in a character list, if any (Python's
`name.rfind('.')` when it is not `-1`). -/
def lastDotPos : List Char → Option Nat
  | [] => none
  | c :: cs =>
    match lastDotPos cs with
    | some i => some (i + 1)
    | none => if c = '.' then some 0 else none

/-- Python's `Path(name).stem` for a bare file name (the program only
applies it to names coming out of a directory listing, which contain no
path separator): drop the last extension when the last `'.'` is at an
index `i` with `0 < i < len - 1`, otherwise keep the name unchanged. -/
def pathStem (name : String) : String :=
  let l := name.data
  match lastDotPos l with
  | none => name
  | some i => if 0 < i ∧ i + 1 < l.length then ⟨l.take i⟩ else name

/-! ## Completion poller (`wait_for_processing_sftp`) -/

/-- One entry of an SFTP directory listing (`sftp.listdir_attr`):
the file name and its modification time in seconds. -/
structure SFTPEntry where
  filename : String
  st_mtime : Int
  deriving DecidableEq, Repr

/-- The converted upload name built in `process_single_file`, step 4:
`f"{Path(filename).stem}_converted.csv"`. -/
def uploadName (filename : String) : String :=
  pathStem filename ++ "_converted.csv"

/-- Normalised base name used by the poller:
`upload_filename.replace('.csv', '').replace('.', '')`.  Note that
`str.replace` removes every occurrence of `'.csv'`, not only a trailing
extension. -/
def normalizeBase (upload_filename : String) : String :=
  strReplace (strReplace upload_filename ".csv" "") "." ""

/-- A single listing entry qualifies when its name contains the normalised
base name, contains `-results-`, ends in `.csv`, and its age relative to
`now` is under 2 hours (the source computes `(now - st_mtime) / 3600 < 2`
over reals; over seconds this is `now - st_mtime < 7200`). -/
def entryQualifies (base : String) (now : Int) (e : SFTPEntry) : Bool :=
  containsStr e.filename base && containsStr e.filename "-results-" &&
    endsWithStr e.filename ".csv" && decide (now - e.st_mtime < 7200)

/-- The inner `for file_attr in files` scan: the first listed entry that
qualifies, if any. -/
def findQualifying (base : String) (now : Int) (files : List SFTPEntry) : Option String :=
  (files.find? (entryQualifies base now)).map SFTPEntry.filename

/-- Result of the poller: the returned path together with the value of the
`attempts` counter at return time, a timeout with the final counter value,
or the `ZeroDivisionError` raised by `(max_wait_minutes * 60) //
check_interval` when `check_interval` is zero. -/
inductive PollOutcome where
  | found (path : String) (attemptsUsed : Nat)
  | timeout (attemptsUsed : Nat)
  | zeroDiv
  deriving DecidableEq, Repr

/-- The `while attempts < max_attempts` loop of
`wait_for_processing_sftp`.  `listings i` is the outcome of the
`sftp.listdir_attr('downloads')` call performed on attempt `i`
(`Except.error` models a raised exception, which is caught, logged and
still increments `attempts`).  The second argument is the current value of
`attempts`; the third is the remaining budget `max_attempts - attempts`. -/
def pollLoop (base : String) (now : Int) (listings : Nat → Except Unit (List SFTPEntry)) :
    Nat → Nat → PollOutcome
  | attempts, 0 => .timeout attempts
  | attempts, rem + 1 =>
    match listings attempts with
    | .error _ => pollLoop base now listings (attempts + 1) rem
    | .ok files =>
      match findQualifying base now files with
      | some name => .found ("downloads/" ++ name) attempts
      | none => pollLoop base now listings (attempts + 1) rem

/-- `wait_for_processing_sftp`: normalise the upload name, compute the
attempt budget `(max_wait_minutes * 60) // check_interval` (raising
`ZeroDivisionError` when the interval is zero, before any listing), then
run the attempt loop from `attempts = 0`. -/
def wait_for_processing_sftp (upload_filename : String)
    (max_wait_minutes check_interval : Nat) (now : Int)
    (listings : Nat → Except Unit (List SFTPEntry)) : PollOutcome :=
  if check_interval = 0 then .zeroDiv
  else
    pollLoop (normalizeBase upload_filename) now listings 0
      ((max_wait_minutes * 60) / check_interval)

/-- What attempt `i` yields: `none` when the listing raised or no entry
qualified, `some name` when the first qualifying entry has that name. -/
def attemptOutcome (base : String) (now : Int)
    (listings : Nat → Except Unit (List SFTPEntry)) (i : Nat) : Option String :=
  match listings i with
  | .error _ => none
  | .ok files => findQualifying base now files

/-! ## Diff analysis (`analyze_email_changes`)

`pd.read_csv` parses each input into a header row and data rows; an empty
cell becomes missing (`NaN`).  A parsed file is modelled with cells of
type `Option String` (`none` = missing); `notna` filters, `astype(str)`
and `value_counts` then act on the present values.  Numeric dtype
inference by pandas is outside the model: cell payloads are the parsed
text. -/

structure DataFrame where
  columns : List String
  rows : List (List (Option String))
  deriving DecidableEq, Repr

/-- Cells of column `c` of `df`, row by row (`df[c]`); a row shorter than
the header yields missing. -/
def colCells (df : DataFrame) (c : String) : List (Option String) :=
  match df.columns.indexOf? c with
  | none => []
  | some i => df.rows.map fun r => (r.getD i none)

/-- The present (non-`NaN`) values of column `c`
(`df[df[c].notna()][c]`). -/
def nonNullValues (df : DataFrame) (c : String) : List String :=
  (colCells df c).filterMap id

/-- The `for col in df.columns: if 'email' in col.lower(): ... break`
scan: first column whose header contains the case-insensitive substring
`email`. -/
def findEmailCol (df : DataFrame) : Option String :=
  df.columns.find? fun c => containsStr (lowerStr c) "email"

/-- The mutable instance state of `FTPEmailProcessor` touched by
`analyze_email_changes`: `self.emails_before`, `self.emails_after`,
`self.new_emails`, `self.duplicate_emails`. -/
structure ProcState where
  emails_before : Nat
  emails_after : Nat
  new_emails : List String
  duplicate_emails : List String
  deriving DecidableEq, Repr

/-- The state set up by `__init__`. -/
def initProcState : ProcState :=
  { emails_before := 0, emails_after := 0, new_emails := [], duplicate_emails := [] }

/-- The dictionary returned by `analyze_email_changes`. -/
structure AnalysisResult where
  total_records_before : Nat
  total_records_after : Nat
  emails_before : Nat
  emails_after : Nat
  new_emails_count : Nat
  duplicate_count : Nat
  new_emails : List String
  duplicate_emails : List String
  deriving DecidableEq, Repr

/-- Python's `sorted` on a list of strings (code-point order).  The
program sorts a duplicate-free list (`sorted(list(new_emails_set))`), on
which every correct sort yields the same output, so a sort is modelled by
Mathlib's insertion sort over `strLeP`. -/
def sortStrings (l : List String) : List String :=
  List.insertionSort strLeP l

/-- Set difference `set(post) - set(pre)` realised as a duplicate-free
list: the distinct elements of `post` that do not occur in `pre`. -/
def setDiffList (post pre : List String) : List String :=
  post.dedup.filter fun v => ¬ pre.contains v

/-- Distinct values occurring at least twice:
`value_counts()[counts > 1].index.tolist()`.  `value_counts` already
excludes missing values, so the subsequent `pd.notna` filter in the
source is a no-op; its descending-count ordering is abstracted — the
embedded list enumerates each offending distinct value once. -/
def duplicatesList (vals : List String) : List String :=
  vals.dedup.filter fun v => 2 ≤ vals.count v

/-- `analyze_email_changes(self, original_file, appended_file)`.
Mirrors the source: locate an email-named column of the appended file; if
none exists, set `self.emails_before = 0` and `self.emails_after = 0`
(the conditional expression short-circuits on `email_col` being `None`)
and leave `self.new_emails` / `self.duplicate_emails` from the previous
invocation untouched; otherwise recompute all four state fields.  The
returned dictionary reads the row counts from the inputs and everything
else from the (updated) instance state, capping both displayed lists at
100 entries. -/
def analyze_email_changes (st : ProcState) (df_original df_appended : DataFrame) :
    AnalysisResult × ProcState :=
  let st' : ProcState :=
    match findEmailCol df_appended with
    | none =>
      { st with emails_before := 0, emails_after := 0 }
    | some email_col =>
      let emails_before_count :=
        if df_original.columns.contains email_col then
          (nonNullValues df_original email_col).length
        else 0
      let emails_after_count := (nonNullValues df_appended email_col).length
      let original_emails :=
        if df_original.columns.contains email_col then
          nonNullValues df_original email_col
        else []
      let appended_emails := nonNullValues df_appended email_col
      let new_emails_sorted := sortStrings (setDiffList appended_emails original_emails)
      let duplicates := duplicatesList (nonNullValues df_appended email_col)
      { emails_before := emails_before_count
        emails_after := emails_after_count
        new_emails := new_emails_sorted
        duplicate_emails := duplicates }
  ({ total_records_before := df_original.rows.length
     total_records_after := df_appended.rows.length
     emails_before := st'.emails_before
     emails_after := st'.emails_after
     new_emails_count := st'.new_emails.length
     duplicate_count := st'.duplicate_emails.length
     new_emails := st'.new_emails.take 100
     duplicate_emails := st'.duplicate_emails.take 100 }, st')

/-! ## Batch orchestrator (`process_single_file` / `process_workflow`)

`process_single_file` runs nine steps for one file inside a single
`try`; the first exception is caught at the file boundary, its message is
recorded in `results['error']`, and `results['success']` stays `False`
(it is set to `True` only after the last step).  The per-step effects are
modelled by an outcome oracle: `none` means the step succeeded, `some
msg` means it raised with message `msg`. -/

inductive Step where
  | download
  | moveArchive
  | convert
  | upload
  | waitResult
  | downloadResult
  | deliver
  | analyzeStep
  | report
  deriving DecidableEq, Repr

/-- The nine steps of `process_single_file`, in source order. -/
def stepOrder : List Step :=
  [.download, .moveArchive, .convert, .upload, .waitResult,
   .downloadResult, .deliver, .analyzeStep, .report]

/-- The per-file result dictionary, abstracted to the fields the claims
are about: the file name, the success flag, the captured error message,
and which steps actually ran. -/
structure FileResult where
  filename : String
  success : Bool
  error : Option String
  stepsRun : List Step
  deriving DecidableEq, Repr

/-- Run steps in order until the first one raises: returns the steps that
ran (the failing one included) and the captured message, if any. -/
def runStepsFrom (env : Step → Option String) : List Step → List Step × Option String
  | [] => ([], none)
  | s :: rest =>
    match env s with
    | some msg => ([s], some msg)
    | none =>
      let r := runStepsFrom env rest
      (s :: r.1, r.2)

/-- `process_single_file` for one file: the whole step sequence under one
`try/except Exception`; `success` is true exactly when no step raised. -/
def process_single_file (env : Step → Option String) (filename : String) : FileResult :=
  let r := runStepsFrom env stepOrder
  { filename := filename
    success := r.2.isNone
    error := r.2
    stepsRun := r.1 }

/-- The workflow result dictionary (counter part). -/
structure WorkflowResults where
  success : Bool
  files_processed : List FileResult
  total_files : Nat
  successful_files : Nat
  failed_files : Nat
  deriving DecidableEq, Repr

/-- Loop body of `process_workflow`, step 4: append the file's result and
bump exactly one of the two counters depending on `result['success']`. -/
def workflowStep (outcome : String → Step → Option String)
    (wr : WorkflowResults) (filename : String) : WorkflowResults :=
  let r := process_single_file (outcome filename) filename
  { wr with
    files_processed := wr.files_processed ++ [r]
    successful_files := if r.success then wr.successful_files + 1 else wr.successful_files
    failed_files := if r.success then wr.failed_files else wr.failed_files + 1 }

/-- `process_workflow` (production path): with no candidate files, return
early with `success = True` and all counters zero; otherwise set
`total_files` to the number of listed candidates, process each file in
order, and finally set `success` to whether no file failed.
`outcome f s` is the effect of step `s` while processing file `f`. -/
def process_workflow (outcome : String → Step → Option String)
    (files_to_process : List String) : WorkflowResults :=
  if files_to_process.isEmpty then
    { success := true, files_processed := [], total_files := 0,
      successful_files := 0, failed_files := 0 }
  else
    let init : WorkflowResults :=
      { success := false, files_processed := [],
        total_files := files_to_process.length,
        successful_files := 0, failed_files := 0 }
    let final := files_to_process.foldl (workflowStep outcome) init
    { final with success := final.failed_files = 0 }

/-! ## Source-connection handle threading

`process_single_file` receives the FPN connection as the parameter
`ftp1`.  Before delivery (step 7) it probes the connection with
`ftp1.pwd()`; on failure it closes the stale handle best-effort
(`ftp1.quit()` inside `try/except: pass`) and rebinds the **local**
variable `ftp1` to a fresh `self.connect_ftp(...)` made with the
originally supplied credentials.  `process_workflow` keeps its own `ftp1`
variable, never rebinds it, and passes it to every `process_single_file`
call, so a rebinding inside one call is invisible to later calls — Python
rebinding of a parameter does not propagate to the caller.

Handles are numbered; `fresh` is the next unused handle number.  Each
source-endpoint operation is recorded with the handle it used. -/

inductive SrcOp where
  | download (h : Nat)
  | moveArchive (h : Nat)
  | probe (h : Nat)
  | closeStale (h : Nat)
  | reopen (cred : String) (h : Nat)
  | deliver (h : Nat)
  deriving DecidableEq, Repr

/-- The source-endpoint operations of `process_single_file` for one file,
given the handle `h0` passed in by the orchestrator and whether the
pre-delivery probe succeeds on it.  Returns the per-file trace and the
next fresh handle number.  On probe failure the close targets the stale
handle, the reopen uses the originally supplied credentials `cred`, and
the rebound local handle is used for the delivery. -/
def singleFileSrcOps (cred : String) (h0 fresh : Nat) (probeOk : Bool) :
    List SrcOp × Nat :=
  if probeOk then
    ([.download h0, .moveArchive h0, .probe h0, .deliver h0], fresh)
  else
    ([.download h0, .moveArchive h0, .probe h0, .closeStale h0,
      .reopen cred fresh, .deliver fresh], fresh + 1)

/-- Per-file source-endpoint traces of the `process_workflow` loop:
`probes` gives each file's probe outcome in order.  The orchestrator
passes its own never-rebound `ftp1` (= `h0`) to every call; only the
fresh-handle counter advances across files. -/
def workflowSrcTraces (cred : String) (h0 : Nat) : Nat → List Bool → List (List SrcOp)
  | _, [] => []
  | fresh, p :: ps =>
    let r := singleFileSrcOps cred h0 fresh p
    r.1 :: workflowSrcTraces cred h0 r.2 ps

/-- The handle an operation used. -/
def SrcOp.handle : SrcOp → Nat
  | .download h => h
  | .moveArchive h => h
  | .probe h => h
  | .closeStale h => h
  | .reopen _ h => h
  | .deliver h => h

/-! ## Helper lemmas -/

theorem countP_split {α : Type} (p : α → Bool) (l : List α) :
    l.countP p + l.countP (fun a => !p a) = l.length := by
  induction l with
  | nil => simp
  | cons a l ih =>
    by_cases h : p a = true <;> simp [List.countP_cons, h] <;> omega

theorem workflow_foldl (outcome : String → Step → Option String) :
    ∀ (files : List String) (wr : WorkflowResults),
      (files.foldl (workflowStep outcome) wr).files_processed
          = wr.files_processed ++ files.map (fun f => process_single_file (outcome f) f) ∧
      (files.foldl (workflowStep outcome) wr).successful_files
          = wr.successful_files
              + files.countP (fun f => (process_single_file (outcome f) f).success) ∧
      (files.foldl (workflowStep outcome) wr).failed_files
          = wr.failed_files
              + files.countP (fun f => !(process_single_file (outcome f) f).success) ∧
      (files.foldl (workflowStep outcome) wr).total_files = wr.total_files := by
  intro files
  induction files with
  | nil => intro wr; simp
  | cons f fs ih =>
    intro wr
    obtain ⟨h1, h2, h3, h4⟩ := ih (workflowStep outcome wr f)
    refine ⟨?_, ?_, ?_, ?_⟩ <;>
      simp only [List.foldl_cons, List.map_cons, List.countP_cons, h1, h2, h3, h4] <;>
      by_cases hs : (process_single_file (outcome f) f).success = true <;>
      simp [workflowStep, hs] <;> omega

/-- Shared characterisation of a completed `process_workflow` run:
`total_files` is the number of candidates, the processed list maps each
candidate through `process_single_file`, and each counter counts the
matching results. -/
theorem process_workflow_run_spec (outcome : String → Step → Option String)
    (files : List String) :
    (process_workflow outcome files).total_files = files.length ∧
    (process_workflow outcome files).files_processed
        = files.map (fun f => process_single_file (outcome f) f) ∧
    (process_workflow outcome files).successful_files
        = ((process_workflow outcome files).files_processed.filter
            (fun r => r.success)).length ∧
    (process_workflow outcome files).failed_files
        = ((process_workflow outcome files).files_processed.filter
            (fun r => !r.success)).length ∧
    (process_workflow outcome files).successful_files
        + (process_workflow outcome files).failed_files
        = (process_workflow outcome files).total_files := by
  by_cases hemp : files.isEmpty
  · rcases List.isEmpty_iff.mp hemp with rfl
    simp [process_workflow]
  · obtain ⟨h1, h2, h3, h4⟩ := workflow_foldl outcome files
      { success := false, files_processed := [], total_files := files.length,
        successful_files := 0, failed_files := 0 }
    have hpw : process_workflow outcome files
        = { (files.foldl (workflowStep outcome)
              { success := false, files_processed := [], total_files := files.length,
                successful_files := 0, failed_files := 0 }) with
            success := (files.foldl (workflowStep outcome)
              { success := false, files_processed := [], total_files := files.length,
                successful_files := 0, failed_files := 0 }).failed_files = 0 } := by
      simp [process_workflow, hemp]
    refine ⟨?_, ?_, ?_, ?_, ?_⟩ <;>
      simp only [hpw, h1, h2, h3, h4, List.nil_append, ← List.countP_eq_length_filter,
        List.countP_map, Nat.zero_add]
    · rfl
    · rfl
    · exact countP_split _ files

/-- C1: for every completed batch run of `process_workflow`, the returned
counters satisfy `successful_files + failed_files = total_files`, where
`total_files` is the number of candidate filenames listed; every processed
file contributes to exactly one of the two counters: `successful_files`
counts exactly the files whose result has `success`, `failed_files`
exactly the rest, and the processed list has one entry per candidate. -/
theorem process_workflow_counters (outcome : String → Step → Option String)
    (files : List String) :
    (process_workflow outcome files).total_files = files.length ∧
    (process_workflow outcome files).files_processed
        = files.map (fun f => process_single_file (outcome f) f) ∧
    (process_workflow outcome files).successful_files
        = ((process_workflow outcome files).files_processed.filter
            (fun r => r.success)).length ∧
    (process_workflow outcome files).failed_files
        = ((process_workflow outcome files).files_processed.filter
            (fun r => !r.success)).length ∧
    (process_workflow outcome files).successful_files
        + (process_workflow outcome files).failed_files
        = (process_workflow outcome files).total_files :=
  process_workflow_run_spec outcome files

theorem runStepsFrom_append_fail (env : Step → Option String)
    (done later : List Step) (s : Step) (msg : String)
    (hdone : ∀ t ∈ done, env t = none) (hs : env s = some msg) :
    runStepsFrom env (done ++ s :: later) = (done ++ [s], some msg) := by
  induction done with
  | nil => simp [runStepsFrom, hs]
  | cons t ts ih =>
    have ht : env t = none := hdone t (by simp)
    have := ih (fun u hu => hdone u (by simp [hu]))
    simp [runStepsFrom, ht, this]

/-- C9: an exception raised by any per-file processing step is caught at
the file boundary: that file's result has `success = false` and records
the raising step's message, no step after the raising one runs for that
file, and the orchestrator still produces one result per candidate file —
the failure never aborts the batch (the failing file's result, and every
other file's own result, appear in `files_processed`). -/
theorem per_file_failure_non_fatal (outcome : String → Step → Option String)
    (files : List String) (f : String) (done later : List Step) (s : Step)
    (msg : String) (hf : f ∈ files)
    (hsplit : stepOrder = done ++ s :: later)
    (hdone : ∀ t ∈ done, outcome f t = none)
    (hs : outcome f s = some msg) :
    (process_workflow outcome files).files_processed
        = files.map (fun g => process_single_file (outcome g) g) ∧
    process_single_file (outcome f) f ∈ (process_workflow outcome files).files_processed ∧
    (process_single_file (outcome f) f).success = false ∧
    (process_single_file (outcome f) f).error = some msg ∧
    (process_single_file (outcome f) f).stepsRun = done ++ [s] := by
  have hrun : runStepsFrom (outcome f) stepOrder = (done ++ [s], some msg) := by
    rw [hsplit]; exact runStepsFrom_append_fail _ _ _ _ _ hdone hs
  have hmap := (process_workflow_run_spec outcome files).2.1
  refine ⟨hmap, ?_, ?_, ?_, ?_⟩
  · rw [hmap]
    exact List.mem_map_of_mem _ hf
  · simp [process_single_file, hrun]
  · simp [process_single_file, hrun]
  · simp [process_single_file, hrun]

/-- Witness for C9: a concrete two-file batch in which file `a` raises at
the conversion step with message `boom`; its failure is captured and file
`b` is still processed. -/
theorem per_file_failure_non_fatal_witness :
    (process_workflow
        (fun f s => if f = "a" ∧ s = .convert then some "boom" else none)
        ["a", "b"]).files_processed
      = ["a", "b"].map (fun g =>
          process_single_file
            (fun s => if g = "a" ∧ s = .convert then some "boom" else none) g) ∧
    process_single_file (fun s => if "a" = "a" ∧ s = .convert then some "boom" else none) "a"
      ∈ (process_workflow
          (fun f s => if f = "a" ∧ s = .convert then some "boom" else none)
          ["a", "b"]).files_processed ∧
    (process_single_file
        (fun s => if "a" = "a" ∧ s = .convert then some "boom" else none) "a").success
      = false ∧
    (process_single_file
        (fun s => if "a" = "a" ∧ s = .convert then some "boom" else none) "a").error
      = some "boom" ∧
    (process_single_file
        (fun s => if "a" = "a" ∧ s = .convert then some "boom" else none) "a").stepsRun
      = [.download, .moveArchive] ++ [.convert] :=
  per_file_failure_non_fatal
    (fun f s => if f = "a" ∧ s = .convert then some "boom" else none)
    ["a", "b"] "a" [.download, .moveArchive] [.upload, .waitResult, .downloadResult,
      .deliver, .analyzeStep, .report] .convert "boom"
    (by decide) (by decide) (by decide) (by decide)

theorem pollLoop_timeout_of (base : String) (now : Int)
    (listings : Nat → Except Unit (List SFTPEntry)) :
    ∀ (rem att : Nat),
      (∀ k, k < rem → attemptOutcome base now listings (att + k) = none) →
      pollLoop base now listings att rem = .timeout (att + rem) := by
  intro rem
  induction rem with
  | zero => intro att _; simp [pollLoop]
  | succ n ih =>
    intro att h
    have h0 := h 0 (Nat.succ_pos n)
    have hshift : ∀ k, k < n → attemptOutcome base now listings (att + 1 + k) = none := by
      intro k hk
      have := h (k + 1) (by omega)
      simpa [Nat.add_assoc, Nat.add_comm 1 k] using this
    have harith : att + 1 + n = att + (n + 1) := by omega
    cases hl : listings att with
    | error e =>
      simp only [pollLoop, hl]
      rw [← harith]
      exact ih (att + 1) hshift
    | ok files =>
      have hfq : findQualifying base now files = none := by
        simpa [attemptOutcome, hl] using h0
      simp only [pollLoop, hl, hfq]
      rw [← harith]
      exact ih (att + 1) hshift

theorem pollLoop_found_of (base : String) (now : Int)
    (listings : Nat → Except Unit (List SFTPEntry)) :
    ∀ (rem att k : Nat) (name : String), k < rem →
      (∀ j, j < k → attemptOutcome base now listings (att + j) = none) →
      attemptOutcome base now listings (att + k) = some name →
      pollLoop base now listings att rem = .found ("downloads/" ++ name) (att + k) := by
  intro rem
  induction rem with
  | zero => intro att k name hk _ _; omega
  | succ n ih =>
    intro att k name hk hbefore hit
    cases k with
    | zero =>
      cases hl : listings att with
      | error e => simp [attemptOutcome, hl] at hit
      | ok files =>
        have hfq : findQualifying base now files = some name := by
          simpa [attemptOutcome, hl] using hit
        simp [pollLoop, hl, hfq]
    | succ m =>
      have h0 : attemptOutcome base now listings att = none := by
        simpa using hbefore 0 (Nat.succ_pos m)
      have hshift : ∀ j, j < m → attemptOutcome base now listings (att + 1 + j) = none := by
        intro j hj
        have := hbefore (j + 1) (by omega)
        simpa [Nat.add_assoc, Nat.add_comm 1 j] using this
      have hit' : attemptOutcome base now listings (att + 1 + m) = some name := by
        simpa [Nat.add_assoc, Nat.add_comm 1 m] using hit
      have harith : att + 1 + m = att + (m + 1) := by omega
      cases hl : listings att with
      | error e =>
        simp only [pollLoop, hl]
        rw [← harith]
        exact ih (att + 1) m name (by omega) hshift hit'
      | ok files =>
        have hfq : findQualifying base now files = none := by
          simpa [attemptOutcome, hl] using h0
        simp only [pollLoop, hl, hfq]
        rw [← harith]
        exact ih (att + 1) m name (by omega) hshift hit'

/-- C2: with a positive check interval, the completion poller returns
`downloads/<name>` for the first listed qualifying entry (name contains
the normalised base name and `-results-`, ends in `.csv`, age under 2
hours) on the first attempt where one appears; if none of the
`(max_wait_minutes * 60) / check_interval` attempts yields a match it
raises `TimeoutError` after exactly that many attempts; and an attempt
whose directory listing raises still consumes one attempt slot (it counts
as a matchless attempt). -/
theorem wait_for_processing_sftp_spec (upload : String)
    (max_wait_minutes check_interval : Nat) (now : Int)
    (listings : Nat → Except Unit (List SFTPEntry))
    (hpos : 0 < check_interval) :
    (∀ i name, i < (max_wait_minutes * 60) / check_interval →
        (∀ j, j < i → attemptOutcome (normalizeBase upload) now listings j = none) →
        attemptOutcome (normalizeBase upload) now listings i = some name →
        wait_for_processing_sftp upload max_wait_minutes check_interval now listings
          = .found ("downloads/" ++ name) i) ∧
    ((∀ i, i < (max_wait_minutes * 60) / check_interval →
        attemptOutcome (normalizeBase upload) now listings i = none) →
        wait_for_processing_sftp upload max_wait_minutes check_interval now listings
          = .timeout ((max_wait_minutes * 60) / check_interval)) ∧
    (∀ i e, listings i = .error e →
        attemptOutcome (normalizeBase upload) now listings i = none) := by
  have hne : ¬ check_interval = 0 := by omega
  refine ⟨?_, ?_, ?_⟩
  · intro i name hi hbefore hit
    simp only [wait_for_processing_sftp, hne, if_false]
    have := pollLoop_found_of (normalizeBase upload) now listings
      ((max_wait_minutes * 60) / check_interval) 0 i name hi
      (fun j hj => by simpa using hbefore j hj) (by simpa using hit)
    simpa using this
  · intro hall
    simp only [wait_for_processing_sftp, hne, if_false]
    have := pollLoop_timeout_of (normalizeBase upload) now listings
      ((max_wait_minutes * 60) / check_interval) 0
      (fun k hk => by simpa using hall k hk)
    simpa using this
  · intro i e hl
    simp [attemptOutcome, hl]

/-- Witness for C2: upload `f.csv` (normalised base `f`), budget
`(1 * 60) / 30 = 2` attempts; attempt 0's listing raises (consuming a
slot), attempt 1 lists a fresh qualifying entry, and the poller returns
it with the counter at 1. -/
theorem wait_for_processing_sftp_spec_witness :
    (0 : Nat) < 30 ∧
    wait_for_processing_sftp "f.csv" 1 30 0
        (fun i => if i = 0 then .error () else .ok [⟨"f-results-1.csv", 0⟩])
      = .found "downloads/f-results-1.csv" 1 := by
  refine ⟨by decide, ?_⟩
  have h := (wait_for_processing_sftp_spec "f.csv" 1 30 0
      (fun i => if i = 0 then .error () else .ok [⟨"f-results-1.csv", 0⟩])
      (by decide)).1
  exact h 1 "f-results-1.csv" (by decide)
    (by
      intro j hj
      have hj0 : j = 0 := by omega
      subst hj0
      decide)
    (by decide)

theorem pollLoop_found_or_timeout (base : String) (now : Int)
    (listings : Nat → Except Unit (List SFTPEntry)) :
    ∀ (rem att : Nat),
      (∃ p i, pollLoop base now listings att rem = .found p i) ∨
      pollLoop base now listings att rem = .timeout (att + rem) := by
  intro rem
  induction rem with
  | zero => intro att; right; simp [pollLoop]
  | succ n ih =>
    intro att
    have harith : att + 1 + n = att + (n + 1) := by omega
    cases hl : listings att with
    | error e =>
      rcases ih (att + 1) with ⟨p, i, hp⟩ | ht
      · left; exact ⟨p, i, by simp only [pollLoop, hl]; exact hp⟩
      · right; simp only [pollLoop, hl]; rw [← harith]; exact ht
    | ok files =>
      cases hfq : findQualifying base now files with
      | some name => left; exact ⟨"downloads/" ++ name, att, by simp [pollLoop, hl, hfq]⟩
      | none =>
        rcases ih (att + 1) with ⟨p, i, hp⟩ | ht
        · left; exact ⟨p, i, by simp only [pollLoop, hl, hfq]; exact hp⟩
        · right; simp only [pollLoop, hl, hfq]; rw [← harith]; exact ht

/-- C10: the poller is total only under `check_interval > 0`.  With
`check_interval = 0` the budget division raises `ZeroDivisionError`
before any listing attempt (the outcome is `zeroDiv`, independent of the
listing oracle); with a positive interval the loop always terminates,
either returning a found path or raising `TimeoutError` after the full
`(max_wait_minutes * 60) / check_interval` budget. -/
theorem wait_for_processing_sftp_totality (upload : String)
    (max_wait_minutes : Nat) (now : Int) :
    (∀ l1 l2 : Nat → Except Unit (List SFTPEntry),
        wait_for_processing_sftp upload max_wait_minutes 0 now l1 = .zeroDiv ∧
        wait_for_processing_sftp upload max_wait_minutes 0 now l1
          = wait_for_processing_sftp upload max_wait_minutes 0 now l2) ∧
    (∀ (check_interval : Nat) (listings : Nat → Except Unit (List SFTPEntry)),
        0 < check_interval →
        (∃ p i, wait_for_processing_sftp upload max_wait_minutes check_interval now listings
            = .found p i) ∨
        wait_for_processing_sftp upload max_wait_minutes check_interval now listings
          = .timeout ((max_wait_minutes * 60) / check_interval)) := by
  constructor
  · intro l1 l2
    constructor <;> simp [wait_for_processing_sftp]
  · intro check_interval listings hpos
    have hne : ¬ check_interval = 0 := by omega
    simp only [wait_for_processing_sftp, hne, if_false]
    have := pollLoop_found_or_timeout (normalizeBase upload) now listings
      ((max_wait_minutes * 60) / check_interval) 0
    simpa using this

/-- Witness for C10: with interval 0 the outcome is `zeroDiv` whatever
the listings; with interval 1 and a budget of zero attempts
(`0 * 60 / 1 = 0`) the loop terminates immediately with a timeout. -/
theorem wait_for_processing_sftp_totality_witness :
    wait_for_processing_sftp "a.csv" 5 0 0 (fun _ => Except.error ()) = .zeroDiv ∧
    wait_for_processing_sftp "a.csv" 0 1 0 (fun _ => Except.error ()) = .timeout 0 := by
  constructor
  · exact ((wait_for_processing_sftp_totality "a.csv" 5 0).1
      (fun _ => Except.error ()) (fun _ => Except.error ())).1
  · rcases (wait_for_processing_sftp_totality "a.csv" 0 0).2 1
        (fun _ => Except.error ()) (by decide) with ⟨p, i, hp⟩ | ht
    · have hv : wait_for_processing_sftp "a.csv" 0 1 0 (fun _ => Except.error ())
          = .timeout 0 := by decide
      rw [hv] at hp
      exact absurd hp (by simp)
    · simpa using ht

theorem leChars_total : ∀ as bs, leChars as bs = true ∨ leChars bs as = true := by
  intro as
  induction as with
  | nil => intro bs; left; rfl
  | cons a as ih =>
    intro bs
    cases bs with
    | nil => right; rfl
    | cons b bs =>
      simp only [leChars]
      rcases Nat.lt_trichotomy a.toNat b.toNat with h | h | h
      · left; simp [h]
      · simp [h, Nat.lt_irrefl]; exact ih bs
      · right; simp [h, Nat.lt_asymm h]

theorem leChars_trans :
    ∀ as bs cs, leChars as bs = true → leChars bs cs = true → leChars as cs = true := by
  intro as
  induction as with
  | nil => intro bs cs _ _; rfl
  | cons a as ih =>
    intro bs cs h1 h2
    cases bs with
    | nil => simp [leChars] at h1
    | cons b bs =>
      cases cs with
      | nil => simp [leChars] at h2
      | cons c cs =>
        simp only [leChars] at h1 h2 ⊢
        by_cases hab : a.toNat < b.toNat
        · by_cases hbc : b.toNat < c.toNat
          · have : a.toNat < c.toNat := by omega
            simp [this]
          · by_cases hcb : c.toNat < b.toNat
            · simp [hbc, hcb] at h2
            · have : a.toNat < c.toNat := by omega
              simp [this]
        · by_cases hba : b.toNat < a.toNat
          · simp [hab, hba] at h1
          · simp only [hab, if_false, hba] at h1
            by_cases hbc : b.toNat < c.toNat
            · have : a.toNat < c.toNat := by omega
              simp [this]
            · by_cases hcb : c.toNat < b.toNat
              · simp [hbc, hcb] at h2
              · simp only [hbc, if_false, hcb] at h2
                have hac : ¬ a.toNat < c.toNat := by omega
                have hca : ¬ c.toNat < a.toNat := by omega
                simp only [hac, if_false, hca]
                exact ih bs cs h1 h2

instance : IsTotal String strLeP := ⟨fun a b => leChars_total a.data b.data⟩

instance : IsTrans String strLeP := ⟨fun a b c => leChars_trans a.data b.data c.data⟩

theorem mem_sortStrings (v : String) (l : List String) : v ∈ sortStrings l ↔ v ∈ l :=
  (List.perm_insertionSort strLeP l).mem_iff

theorem sortStrings_sorted (l : List String) : List.Sorted strLeP (sortStrings l) :=
  List.sorted_insertionSort strLeP l

theorem sortStrings_nodup (l : List String) (h : l.Nodup) : (sortStrings l).Nodup :=
  ((List.perm_insertionSort strLeP l).nodup_iff).mpr h

theorem mem_setDiffList (v : String) (post pre : List String) :
    v ∈ setDiffList post pre ↔ v ∈ post ∧ v ∉ pre := by
  simp [setDiffList, List.mem_filter]

theorem setDiffList_nodup (post pre : List String) : (setDiffList post pre).Nodup :=
  (List.nodup_dedup post).filter _

theorem mem_duplicatesList (v : String) (vals : List String) :
    v ∈ duplicatesList vals ↔ 2 ≤ vals.count v := by
  simp only [duplicatesList, List.mem_filter, List.mem_dedup, decide_eq_true_iff]
  constructor
  · exact fun h => h.2
  · intro h
    refine ⟨?_, h⟩
    exact List.count_pos_iff.mp (by omega)

theorem duplicatesList_nodup (vals : List String) : (duplicatesList vals).Nodup :=
  (List.nodup_dedup vals).filter _

/-- C3: when the appended file has an email-named column `col`, the
computed new-email list is exactly the set of non-empty appended-file
values minus the set of non-empty original-file values (the full appended
set when the column is absent from the original), held as a sorted
duplicate-free sequence; the returned display list is its first 100
entries while `new_emails_count` is the uncapped set size. -/
theorem analyze_new_emails_spec (st : ProcState) (pre post : DataFrame)
    (col : String) (hcol : findEmailCol post = some col) :
    (∀ v, v ∈ (analyze_email_changes st pre post).2.new_emails ↔
        (v ∈ nonNullValues post col ∧
          (col ∈ pre.columns → v ∉ nonNullValues pre col))) ∧
    List.Sorted strLeP (analyze_email_changes st pre post).2.new_emails ∧
    (analyze_email_changes st pre post).2.new_emails.Nodup ∧
    (analyze_email_changes st pre post).1.new_emails
        = (analyze_email_changes st pre post).2.new_emails.take 100 ∧
    (analyze_email_changes st pre post).1.new_emails_count
        = (analyze_email_changes st pre post).2.new_emails.length := by
  have hst : (analyze_email_changes st pre post).2.new_emails
      = sortStrings (setDiffList (nonNullValues post col)
          (if pre.columns.contains col then nonNullValues pre col else [])) := by
    simp [analyze_email_changes, hcol]
  refine ⟨?_, ?_, ?_, ?_, ?_⟩
  · intro v
    rw [hst, mem_sortStrings, mem_setDiffList]
    by_cases hc : pre.columns.contains col = true
    · have hmem : col ∈ pre.columns := by simpa using hc
      simp [hc, hmem]
    · have hmem : col ∉ pre.columns := by simpa using hc
      simp [hc, hmem]
  · rw [hst]; exact sortStrings_sorted _
  · rw [hst]; exact sortStrings_nodup _ (setDiffList_nodup _ _)
  · simp [analyze_email_changes, hcol]
  · simp [analyze_email_changes, hcol]

def dfPreW : DataFrame := ⟨["Email"], [[some "b@x"], [none]]⟩

def dfPostW : DataFrame := ⟨["Email"], [[some "b@x"], [some "a@x"], [some "a@x"]]⟩

/-- Witness for C3: a concrete pre/post pair where `a@x` is the one new
email. -/
theorem analyze_new_emails_spec_witness :
    findEmailCol dfPostW = some "Email" ∧
    (∀ v, v ∈ (analyze_email_changes initProcState dfPreW dfPostW).2.new_emails ↔
        (v ∈ nonNullValues dfPostW "Email" ∧
          ("Email" ∈ dfPreW.columns → v ∉ nonNullValues dfPreW "Email"))) ∧
    (analyze_email_changes initProcState dfPreW dfPostW).1.new_emails_count
        = (analyze_email_changes initProcState dfPreW dfPostW).2.new_emails.length :=
  ⟨by decide,
   (analyze_new_emails_spec initProcState dfPreW dfPostW "Email" (by decide)).1,
   (analyze_new_emails_spec initProcState dfPreW dfPostW "Email" (by decide)).2.2.2.2⟩

/-- C4: when the appended file has an email-named column `col`, the
computed duplicate list contains exactly the values occurring at least
twice among the present (non-missing) values of that column, each once;
`duplicate_count` is its uncapped size and the returned display list its
first 100 entries. -/
theorem analyze_duplicates_spec (st : ProcState) (pre post : DataFrame)
    (col : String) (hcol : findEmailCol post = some col) :
    (∀ v, v ∈ (analyze_email_changes st pre post).2.duplicate_emails ↔
        2 ≤ (nonNullValues post col).count v) ∧
    (analyze_email_changes st pre post).2.duplicate_emails.Nodup ∧
    (analyze_email_changes st pre post).1.duplicate_count
        = (analyze_email_changes st pre post).2.duplicate_emails.length ∧
    (analyze_email_changes st pre post).1.duplicate_emails
        = (analyze_email_changes st pre post).2.duplicate_emails.take 100 := by
  have hst : (analyze_email_changes st pre post).2.duplicate_emails
      = duplicatesList (nonNullValues post col) := by
    simp [analyze_email_changes, hcol]
  refine ⟨?_, ?_, ?_, ?_⟩
  · intro v
    rw [hst]
    exact mem_duplicatesList v _
  · rw [hst]; exact duplicatesList_nodup _
  · simp [analyze_email_changes, hcol]
  · simp [analyze_email_changes, hcol]

/-- Witness for C4: in `dfPostW` the value `a@x` occurs twice and is the
only duplicate. -/
theorem analyze_duplicates_spec_witness :
    findEmailCol dfPostW = some "Email" ∧
    ("a@x" ∈ (analyze_email_changes initProcState dfPreW dfPostW).2.duplicate_emails ↔
        2 ≤ (nonNullValues dfPostW "Email").count "a@x") ∧
    (analyze_email_changes initProcState dfPreW dfPostW).1.duplicate_count
        = (analyze_email_changes initProcState dfPreW dfPostW).2.duplicate_emails.length :=
  ⟨by decide,
   (analyze_duplicates_spec initProcState dfPreW dfPostW "Email" (by decide)).1 "a@x",
   (analyze_duplicates_spec initProcState dfPreW dfPostW "Email" (by decide)).2.2.1⟩

/-- Counterexample to C5: `analyze_email_changes` is not independent of
earlier invocations.  After analysing a pair that produced one new email,
analysing a pair with no email-named column reports
`new_emails_count = 1` (the stale `self.new_emails` from the earlier
call), while a fresh instance reports `0` on the same inputs. -/
theorem analyze_email_changes_not_pure :
    (analyze_email_changes
        ((analyze_email_changes initProcState ⟨["Email"], []⟩
            ⟨["Email"], [[some "a@x"]]⟩).2)
        ⟨["x"], []⟩ ⟨["x"], []⟩).1
      ≠ (analyze_email_changes initProcState ⟨["x"], []⟩ ⟨["x"], []⟩).1 := by
  decide

/-- C5 as amended: the analysis is a pure function of its inputs and the
instance state; whenever the appended file has an email-named column the
result (and the updated state) is independent of the prior state, so on
that domain the analysis is deterministic and idempotent regardless of
earlier invocations.  In the no-email-column branch the new/duplicate
fields carry over from the prior state, so independence fails there (see
the counterexample). -/
theorem analyze_email_changes_pure_of_email_col (s1 s2 : ProcState)
    (pre post : DataFrame) (col : String)
    (hcol : findEmailCol post = some col) :
    (analyze_email_changes s1 pre post).1 = (analyze_email_changes s2 pre post).1 ∧
    (analyze_email_changes s1 pre post).2 = (analyze_email_changes s2 pre post).2 := by
  constructor <;> simp [analyze_email_changes, hcol]

/-- Witness for the amended C5: two different prior states give the same
result on `dfPreW` / `dfPostW`. -/
theorem analyze_email_changes_pure_of_email_col_witness :
    findEmailCol dfPostW = some "Email" ∧
    (analyze_email_changes ⟨7, 7, ["stale"], ["stale"]⟩ dfPreW dfPostW).1
      = (analyze_email_changes initProcState dfPreW dfPostW).1 :=
  ⟨by decide,
   (analyze_email_changes_pure_of_email_col ⟨7, 7, ["stale"], ["stale"]⟩
      initProcState dfPreW dfPostW "Email" (by decide)).1⟩

/-- Counterexample to C6: with no email-named column in the appended
file, the returned record counts are the actual row counts of the inputs,
not zero. -/
theorem analyze_no_email_col_counts_not_zero :
    findEmailCol (⟨["b"], [[some "2"]]⟩ : DataFrame) = none ∧
    (analyze_email_changes initProcState ⟨["a"], [[some "1"]]⟩
        ⟨["b"], [[some "2"]]⟩).1.total_records_after ≠ 0 ∧
    (analyze_email_changes initProcState ⟨["a"], [[some "1"]]⟩
        ⟨["b"], [[some "2"]]⟩).1.total_records_before ≠ 0 := by
  decide

/-- C6 as amended: when no column of the appended file has a header
containing the case-insensitive substring `email`, the result reports the
inputs' actual row counts, zero email counts, and new/duplicate data taken
from the processor's prior state — on a freshly initialised instance the
two collections are empty and both their counts zero. -/
theorem analyze_no_email_col_fresh (pre post : DataFrame)
    (hcol : findEmailCol post = none) :
    (analyze_email_changes initProcState pre post).1
      = { total_records_before := pre.rows.length,
          total_records_after := post.rows.length,
          emails_before := 0, emails_after := 0,
          new_emails_count := 0, duplicate_count := 0,
          new_emails := [], duplicate_emails := [] } := by
  simp [analyze_email_changes, hcol, initProcState]

/-- Witness for the amended C6. -/
theorem analyze_no_email_col_fresh_witness :
    findEmailCol (⟨["b"], [[some "2"]]⟩ : DataFrame) = none ∧
    (analyze_email_changes initProcState ⟨["a"], [[some "1"]]⟩
        ⟨["b"], [[some "2"]]⟩).1
      = { total_records_before := 1, total_records_after := 1,
          emails_before := 0, emails_after := 0,
          new_emails_count := 0, duplicate_count := 0,
          new_emails := [], duplicate_emails := [] } :=
  ⟨by decide,
   analyze_no_email_col_fresh ⟨["a"], [[some "1"]]⟩ ⟨["b"], [[some "2"]]⟩ (by decide)⟩

/-- Normalisation as the claim words it: "the upload name with its
extension removed and all `.` characters removed".  This is the
comparison definition for the refinement check against `normalizeBase`,
which instead removes every occurrence of the substring `.csv` before
removing dots. -/
def specNormalizedBase (upload_filename : String) : String :=
  strReplace (pathStem upload_filename) "." ""

/-- Counterexample to C7: for the original filename `a.csv.txt` (stem
`a.csv`, upload name `a.csv_converted.csv`) the code's normalised base is
`a_converted` — `str.replace('.csv', '')` deletes the interior `.csv`
too — while "extension removed and all dots removed" gives
`acsv_converted`. -/
theorem normalizeBase_ne_extension_removed :
    uploadName "a.csv.txt" = "a.csv_converted.csv" ∧
    normalizeBase (uploadName "a.csv.txt") = "a_converted" ∧
    specNormalizedBase (uploadName "a.csv.txt") = "acsv_converted" ∧
    normalizeBase (uploadName "a.csv.txt") ≠ specNormalizedBase (uploadName "a.csv.txt") := by
  decide

/-- C7 as amended: the converted upload name is the original stem followed
by `_converted.csv`; the normalised base equals the upload name with every
occurrence of the substring `.csv` removed and then all remaining `.`
characters removed (coinciding with "extension removed, dots removed"
whenever the stem contains no `.csv`); an entry qualifies only if its
name contains the normalised base, contains `-results-`, and ends in
`.csv`; and the claim's worked example behaves as stated. -/
theorem filename_rules_spec :
    (∀ f, uploadName f = pathStem f ++ "_converted.csv") ∧
    (∀ u, normalizeBase u = strReplace (strReplace u ".csv" "") "." "") ∧
    uploadName "Report.Final.csv" = "Report.Final_converted.csv" ∧
    normalizeBase "Report.Final_converted.csv" = "ReportFinal_converted" ∧
    specNormalizedBase "Report.Final_converted.csv" = "ReportFinal_converted" ∧
    (∀ base now e, entryQualifies base now e = true →
        containsStr e.filename base = true ∧
        containsStr e.filename "-results-" = true ∧
        endsWithStr e.filename ".csv" = true) ∧
    entryQualifies "ReportFinal_converted" 0
        ⟨"ReportFinal_converted-results-00042.csv", 0⟩ = true ∧
    (∀ now m, entryQualifies "ReportFinal_converted" now
        ⟨"ReportOther-results-1.csv", m⟩ = false) := by
  refine ⟨fun f => rfl, fun u => rfl, by decide, by decide, by decide, ?_, by decide, ?_⟩
  · intro base now e h
    simp only [entryQualifies, Bool.and_eq_true] at h
    exact ⟨h.1.1.1, h.1.1.2, h.1.2⟩
  · intro now m
    have hc : containsStr "ReportOther-results-1.csv" "ReportFinal_converted" = false := by
      decide
    simp [entryQualifies, hc]

/-- Witness for the amended C7: the qualification conditions extracted
from a concrete qualifying entry. -/
theorem filename_rules_spec_witness :
    entryQualifies "ReportFinal_converted" 0
        ⟨"ReportFinal_converted-results-00042.csv", 0⟩ = true ∧
    containsStr "ReportFinal_converted-results-00042.csv" "ReportFinal_converted" = true ∧
    containsStr "ReportFinal_converted-results-00042.csv" "-results-" = true ∧
    endsWithStr "ReportFinal_converted-results-00042.csv" ".csv" = true := by
  have h := filename_rules_spec.2.2.2.2.2.1 "ReportFinal_converted" 0
    ⟨"ReportFinal_converted-results-00042.csv", 0⟩ (by decide)
  exact ⟨by decide, h.1, h.2.1, h.2.2⟩

/-- Counterexample to C8: a two-file batch in which file 1's liveness
probe fails.  The stale handle 0 is closed and a replacement handle 1 is
opened and used for file 1's delivery, but every source-endpoint
operation of **file 2** again uses handle 0 — the orchestrator's variable
was never rebound, so the replacement does not reach later files,
refuting "no later operation uses the stale handle". -/
theorem reconnect_not_propagated_to_later_files :
    workflowSrcTraces "cred" 0 1 [false, true]
      = [[.download 0, .moveArchive 0, .probe 0, .closeStale 0,
          .reopen "cred" 1, .deliver 1],
         [.download 0, .moveArchive 0, .probe 0, .deliver 0]] ∧
    ((workflowSrcTraces "cred" 0 1 [false, true]).getD 1 []).all
        (fun op => op.handle = 0) = true ∧
    SrcOp.reopen "cred" 1 ∈ (workflowSrcTraces "cred" 0 1 [false, true]).getD 0 [] := by
  decide

/-- C8 as amended: on probe failure the stale handle is closed, a
replacement is opened with the originally supplied credentials, and the
replacement is used for the remaining source-endpoint operations of the
**current file**; the orchestrator's own handle variable is never
rebound, so every file of the batch — later ones included — starts from
the originally passed handle. -/
theorem source_handle_threading (cred : String) (h0 : Nat) :
    (∀ fresh, (singleFileSrcOps cred h0 fresh false).1
        = [.download h0, .moveArchive h0, .probe h0, .closeStale h0,
           .reopen cred fresh, .deliver fresh] ∧
      (singleFileSrcOps cred h0 fresh false).2 = fresh + 1 ∧
      (singleFileSrcOps cred h0 fresh true).1
        = [.download h0, .moveArchive h0, .probe h0, .deliver h0]) ∧
    (∀ fresh probes t, t ∈ workflowSrcTraces cred h0 fresh probes →
        t.head? = some (.download h0)) := by
  constructor
  · intro fresh
    exact ⟨rfl, rfl, rfl⟩
  · intro fresh probes
    induction probes generalizing fresh with
    | nil => intro t ht; simp [workflowSrcTraces] at ht
    | cons p ps ih =>
      intro t ht
      simp only [workflowSrcTraces, List.mem_cons] at ht
      rcases ht with rfl | ht
      · cases p <;> rfl
      · exact ih _ t ht

/-- Witness for the amended C8: in the concrete two-file batch above,
both files' traces start from the originally passed handle 0. -/
theorem source_handle_threading_witness :
    [SrcOp.download 0, .moveArchive 0, .probe 0, .deliver 0].head?
        = some (SrcOp.download 0) ∧
    [SrcOp.download 0, .moveArchive 0, .probe 0, .closeStale 0,
        .reopen "cred" 1, .deliver 1].head? = some (SrcOp.download 0) :=
  ⟨(source_handle_threading "cred" 0).2 1 [false, true]
      [SrcOp.download 0, .moveArchive 0, .probe 0, .deliver 0] (by decide),
   (source_handle_threading "cred" 0).2 1 [false, true]
      [SrcOp.download 0, .moveArchive 0, .probe 0, .closeStale 0,
        .reopen "cred" 1, .deliver 1] (by decide)⟩
